import Mathlib

/-!
Shallow embedding of the Cloudflare worker in
`workers/poi-upload-worker` (file `src/unnamed/part_004` of the snapshot):
a proxy that initiates and completes Apillon upload sessions and batch-moves
pending proof-of-ink images to the approved folder.  Network effects are
modelled by explicit response oracles and an event trace listing every
backend call the code would issue.
-/

namespace PoiWorker

/-- JS truthiness of a possibly-missing string: `undefined`, `null` and the
empty string are falsy, every other string is truthy. -/
def truthyS : Option String → Bool
  | none => false
  | some s => s ≠ ""

/-- JS `a || b` for possibly-missing strings (used for `file.CIDv1 || file.CID`). -/
def jsOrOpt (a b : Option String) : Option String :=
  match a with
  | none => b
  | some s => if s = "" then b else some s

/-- JS `a || d` giving a default string when `a` is missing or empty
(used for `split.pop() || "unknown"` and `headers.get(..) || "application/octet-stream"`). -/
def jsOrD (a : Option String) (d : String) : String :=
  match a with
  | none => d
  | some s => if s = "" then d else s

/-- Worker configuration (the `Env` interface). -/
structure Env where
  APILLON_API_KEY : String
  APILLON_API_SECRET : String
  APILLON_BUCKET_UUID : String
  ALLOWED_ORIGINS : String

/-- One backend call the worker issues, in the order the code awaits them. -/
inductive Event where
  | fetchUrl (url : String)
  | apilInitiate (fileName contentType directoryPath : String)
  | putUpload (url : String)
  | apilComplete (sessionUuid : String)
  | apilDelete (fileUuid : String)
  | apilList
deriving DecidableEq

/-- Outcome of one HTTP round trip: the `response.ok` flag and the text the
code would read from a failed response. -/
structure HttpOutcome where
  ok : Bool
  errorText : String
deriving DecidableEq

/-- One entry of `data.files` in the Apillon initiate-upload response; fields
are optional because the runtime JSON may lack them (the code guards with
optional chaining and truthiness). -/
structure ApillonFileEntry where
  url : Option String
  fileUuid : Option String
deriving DecidableEq

/-- The `data` object of the Apillon initiate-upload response. -/
structure ApillonUploadData where
  sessionUuid : Option String
  files : List ApillonFileEntry
deriving DecidableEq

/-- JSON body of the Apillon initiate-upload response (`data` may be absent). -/
structure ApillonUploadResponse where
  data : Option ApillonUploadData
deriving DecidableEq

/-- The `data` object of the Apillon complete-upload response. -/
structure ApillonCompleteData where
  success : Bool
deriving DecidableEq

/-- JSON body of the Apillon complete-upload response. -/
structure ApillonCompleteResponse where
  data : Option ApillonCompleteData
deriving DecidableEq

/-- The chain `resp.data?.sessionUuid` of optional accesses. -/
def sessionUuidOf (r : ApillonUploadResponse) : Option String :=
  r.data.bind (·.sessionUuid)

/-- The chain `resp.data?.files?.[0]?.url` of optional accesses. -/
def firstFileUrl (r : ApillonUploadResponse) : Option String :=
  r.data.bind (fun d => d.files.head?.bind (·.url))

/-- The chain `resp.data?.files?.[0]?.fileUuid` of optional accesses. -/
def firstFileUuid (r : ApillonUploadResponse) : Option String :=
  r.data.bind (fun d => d.files.head?.bind (·.fileUuid))

/-- The chain `resp.data?.success` of the complete-upload response. -/
def completeSuccessOf (r : ApillonCompleteResponse) : Bool :=
  match r.data with
  | none => false
  | some d => d.success

/-- Embedding of `apillonInitiateUpload`: issues one POST to the bucket
upload endpoint; throws (Except.error) when the response is not ok, else
returns the parsed JSON supplied by the oracle. -/
def apillonInitiateUpload (out : HttpOutcome) (resp : ApillonUploadResponse)
    (fileName contentType directoryPath : String) :
    Except String ApillonUploadResponse × List Event :=
  (if out.ok then Except.ok resp
   else Except.error ("Apillon initiate upload failed: " ++ out.errorText),
   [Event.apilInitiate fileName contentType directoryPath])

/-- Embedding of `apillonCompleteUpload`: one POST to the session end
endpoint; throws when the response is not ok. -/
def apillonCompleteUpload (out : HttpOutcome) (resp : ApillonCompleteResponse)
    (sessionUuid : String) :
    Except String ApillonCompleteResponse × List Event :=
  (if out.ok then Except.ok resp
   else Except.error ("Apillon complete upload failed: " ++ out.errorText),
   [Event.apilComplete sessionUuid])

/-- Embedding of `deleteApillonFile`: one DELETE of the file by uuid; throws
when the response is not ok. -/
def deleteApillonFile (out : HttpOutcome) (fileUuid : String) :
    Except String Unit × List Event :=
  (if out.ok then Except.ok ()
   else Except.error ("Failed to delete file: " ++ out.errorText),
   [Event.apilDelete fileUuid])

/-- Response oracle for one `moveFile` call: the outcomes of the (at most)
five network round trips, in program order. -/
structure MoveOracle where
  fetchOk : Bool
  fetchStatusText : String
  fetchContentType : Option String
  initOut : HttpOutcome
  initResp : ApillonUploadResponse
  putOk : Bool
  putStatusText : String
  complOut : HttpOutcome
  complResp : ApillonCompleteResponse
  delOut : HttpOutcome

/-- Embedding of `moveFile`: download via the authenticated link, initiate an
upload session for the target folder, PUT the bytes to the signed url,
complete the session, and only then delete the source object.  Returns the
thrown error or unit, together with the trace of backend calls made. -/
def moveFile (o : MoveOracle) (_fromPath toPath fileUuid : String)
    (fileLink : Option String) : Except String Unit × List Event :=
  match fileLink with
  | none => (Except.error "File link is required to download file", [])
  | some link =>
    if o.fetchOk = false then
      (Except.error ("Failed to download file: " ++ o.fetchStatusText),
       [Event.fetchUrl link])
    else
      let fileName := jsOrD (toPath.splitOn "/").getLast? "unknown"
      let contentType := jsOrD o.fetchContentType "application/octet-stream"
      let targetFolder := (toPath.splitOn "/").headD ""
      let (initRes, initEvs) :=
        apillonInitiateUpload o.initOut o.initResp fileName contentType targetFolder
      match initRes with
      | Except.error e => (Except.error e, Event.fetchUrl link :: initEvs)
      | Except.ok us =>
        if truthyS (sessionUuidOf us) = false ∨ truthyS (firstFileUrl us) = false then
          (Except.error "Failed to initiate upload to new location",
           Event.fetchUrl link :: initEvs)
        else
          let uploadUrl := (firstFileUrl us).getD ""
          if o.putOk = false then
            (Except.error ("Failed to upload file: " ++ o.putStatusText),
             Event.fetchUrl link :: initEvs ++ [Event.putUpload uploadUrl])
          else
            let (complRes, complEvs) :=
              apillonCompleteUpload o.complOut o.complResp ((sessionUuidOf us).getD "")
            match complRes with
            | Except.error e =>
              (Except.error e,
               Event.fetchUrl link :: initEvs ++ [Event.putUpload uploadUrl] ++ complEvs)
            | Except.ok _ =>
              let (delRes, delEvs) := deleteApillonFile o.delOut fileUuid
              (delRes,
               Event.fetchUrl link :: initEvs ++ [Event.putUpload uploadUrl]
                 ++ complEvs ++ delEvs)

/-- One raw item of the Apillon bucket listing (`data.items` of the GET
files response). -/
structure ApillonItem where
  name : String
  fileUuid : String
  path : Option String
  link : Option String
  CID : Option String
  CIDv1 : Option String
deriving DecidableEq

/-- One mapped entry returned by `listFilesInFolder`. -/
structure ListedFile where
  name : String
  uuid : String
  link : Option String
  cid : Option String
deriving DecidableEq

/-- Pure core of `listFilesInFolder`: filter the bucket listing to the items
whose recorded path equals the folder prefix and map to the reduced shape. -/
def listFilesInFolder (items : List ApillonItem) (folder : String) :
    List ListedFile :=
  (items.filter (fun f => f.path.getD "" = folder ++ "/")).map
    (fun f => ⟨f.name, f.fileUuid, f.link, jsOrOpt f.CIDv1 f.CID⟩)

/-- True for the JavaScript line terminators, which `.` in a regex does not
match. -/
def isLineTerm (c : Char) : Bool :=
  c = Char.ofNat 10 ∨ c = Char.ofNat 13 ∨ c = Char.ofNat 0x2028 ∨ c = Char.ofNat 0x2029

/-- Split a character list at its last dot, provided the suffix after that
dot is nonempty; the suffix is dot-free by construction.  Helper for the
regex match below. -/
def splitLastDot : List Char → Option (List Char × List Char)
  | [] => none
  | c :: cs =>
    match splitLastDot cs with
    | some (b, e) => some (c :: b, e)
    | none =>
      if c = '.' ∧ cs ≠ [] ∧ cs.contains '.' = false then some ([], cs) else none

/-- Embedding of the JS match against the anchored regex splitting a file
name into base and extension at the last dot: the base group matches one or
more non-line-terminator characters, then a literal dot, then one or more
non-dot characters up to the end. -/
def matchNameExt (name : String) : Option (String × String) :=
  match splitLastDot name.data with
  | none => none
  | some (b, e) =>
    if b ≠ [] ∧ b.all (fun c => isLineTerm c = false) then
      some (String.mk b, String.mk e)
    else none

/-- Value stored in the pending map for one address. -/
structure PendingInfo where
  fileName : String
  fileUuid : String
  extension : String
  link : Option String
deriving DecidableEq

/-- JS `Map.set`: replace the value at an existing key, else append. -/
def mapSet : List (String × PendingInfo) → String → PendingInfo →
    List (String × PendingInfo)
  | [], k, v => [(k, v)]
  | (k₀, v₀) :: rest, k, v =>
    if k₀ = k then (k, v) :: rest else (k₀, v₀) :: mapSet rest k v

/-- JS `Map.get`: first value at the key, if any. -/
def mapGet : List (String × PendingInfo) → String → Option PendingInfo
  | [], _ => none
  | (k₀, v₀) :: rest, k => if k₀ = k then some v₀ else mapGet rest k

/-- Embedding of the pending-map construction loop: for each listed file
whose name matches the address-dot-extension pattern, record it under the
extracted address. -/
def buildPendingMap (files : List ListedFile) : List (String × PendingInfo) :=
  files.foldl
    (fun m f =>
      match matchNameExt f.name with
      | some (address, extension) =>
        mapSet m address ⟨f.name, f.uuid, extension, f.link⟩
      | none => m)
    []

/-- One moved entry of the sync result (`from` and `to` of the source are
keywords in Lean, hence `fromPath` and `toPath`). -/
structure MovedEntry where
  address : String
  fromPath : String
  toPath : String
deriving DecidableEq

/-- One skipped entry of the sync result. -/
structure SkippedEntry where
  address : String
  reason : String
deriving DecidableEq

/-- One error entry of the sync result. -/
structure ErrorEntry where
  address : String
  error : String
deriving DecidableEq

/-- The three result lists accumulated by the sync loop. -/
structure SyncResult where
  moved : List MovedEntry
  skipped : List SkippedEntry
  errors : List ErrorEntry
deriving DecidableEq

/-- Runtime shape of the `addresses` field of the sync request body: absent,
present but not an array, or an array of strings. -/
inductive AddressesField where
  | missing
  | notArray
  | arr (xs : List String)

/-- Embedding of the per-address loop of `handleSyncApprovedMembers`: look
each address up in the pending map, skip when absent, otherwise run
`moveFile` (the oracle is indexed by the loop position) and record the
outcome; a thrown error is caught at the address boundary. -/
def syncLoop (mv : Nat → MoveOracle) (pmap : List (String × PendingInfo)) :
    Nat → List String → SyncResult × List Event
  | _, [] => (⟨[], [], []⟩, [])
  | i, address :: rest =>
    let (r, evs) := syncLoop mv pmap (i + 1) rest
    match mapGet pmap address with
    | none =>
      ({ r with skipped := ⟨address, "No pending image found"⟩ :: r.skipped }, evs)
    | some fileInfo =>
      let (mres, mevs) :=
        moveFile (mv i) ("pending/" ++ fileInfo.fileName)
          ("approved/" ++ fileInfo.fileName) fileInfo.fileUuid fileInfo.link
      match mres with
      | Except.ok _ =>
        ({ r with moved := ⟨address, "pending/" ++ fileInfo.fileName,
                            "approved/" ++ fileInfo.fileName⟩ :: r.moved },
         mevs ++ evs)
      | Except.error e =>
        ({ r with errors := ⟨address, e⟩ :: r.errors }, mevs ++ evs)

/-- Response of the sync endpoint, one constructor per `jsonResponse` call
site of `handleSyncApprovedMembers`. -/
inductive SyncResp where
  | methodNotAllowed
  | invalidAddresses
  | syncFailed (details : String)
  | ok (r : SyncResult)
deriving DecidableEq

/-- HTTP status of each sync response. -/
def statusSync : SyncResp → Nat
  | SyncResp.methodNotAllowed => 405
  | SyncResp.invalidAddresses => 400
  | SyncResp.syncFailed _ => 500
  | SyncResp.ok _ => 200

/-- The `error` field of each non-ok sync response body. -/
def syncErrMsg : SyncResp → Option String
  | SyncResp.methodNotAllowed => some "Method not allowed"
  | SyncResp.invalidAddresses => some "Invalid addresses array"
  | SyncResp.syncFailed _ => some "Sync failed"
  | SyncResp.ok _ => none

/-- Embedding of `handleSyncApprovedMembers`: reject non-POST, parse the
body (a parse failure is caught by the inner try and yields the 500 sync
failure), validate the addresses array, truncate to 50, list the bucket
once (a listing failure likewise yields the 500 sync failure), build the
pending map and run the per-address loop. -/
def handleSyncApprovedMembers (method : String)
    (body : Except String AddressesField) (listOut : HttpOutcome)
    (items : List ApillonItem) (mv : Nat → MoveOracle) :
    SyncResp × List Event :=
  if method ≠ "POST" then (SyncResp.methodNotAllowed, [])
  else
    match body with
    | Except.error e => (SyncResp.syncFailed e, [])
    | Except.ok field =>
      let addresses : Option (List String) :=
        match field with
        | AddressesField.missing => some []
        | AddressesField.notArray => none
        | AddressesField.arr xs => some xs
      match addresses with
      | none => (SyncResp.invalidAddresses, [])
      | some addrs =>
        if addrs.length = 0 then (SyncResp.invalidAddresses, [])
        else
          let limitedAddresses := addrs.take 50
          if listOut.ok = false then
            (SyncResp.syncFailed ("Failed to list files: " ++ listOut.errorText),
             [Event.apilList])
          else
            let pendingFiles := listFilesInFolder items "pending"
            let pendingMap := buildPendingMap pendingFiles
            let (r, evs) := syncLoop mv pendingMap 0 limitedAddresses
            (SyncResp.ok r, Event.apilList :: evs)

/-- Runtime shape of the initiate request body (fields may be absent). -/
structure InitiateBody where
  fileName : Option String
  contentType : Option String
  directoryPath : Option String

/-- Response of the initiate endpoint, one constructor per `jsonResponse`
call site of `handleInitiateUpload`. -/
inductive InitiateResp where
  | missingFields
  | invalidDirectoryPath
  | initiateFailed
  | ok (sessionUuid uploadUrl : String) (fileUuid : Option String)
deriving DecidableEq

/-- HTTP status of each initiate response. -/
def statusInitiate : InitiateResp → Nat
  | InitiateResp.missingFields => 400
  | InitiateResp.invalidDirectoryPath => 400
  | InitiateResp.initiateFailed => 500
  | InitiateResp.ok _ _ _ => 200

/-- Embedding of `handleInitiateUpload`: require the three fields truthy,
require directoryPath to be pending or approved, call the Apillon initiate
endpoint (a thrown upstream error propagates to the caller), check the
response shape and return the signed url data. -/
def handleInitiateUpload (body : Except String InitiateBody)
    (out : HttpOutcome) (resp : ApillonUploadResponse) :
    Except String InitiateResp × List Event :=
  match body with
  | Except.error e => (Except.error e, [])
  | Except.ok b =>
    if truthyS b.fileName = false ∨ truthyS b.contentType = false ∨
        truthyS b.directoryPath = false then
      (Except.ok InitiateResp.missingFields, [])
    else if b.directoryPath ≠ some "pending" ∧ b.directoryPath ≠ some "approved" then
      (Except.ok InitiateResp.invalidDirectoryPath, [])
    else
      let (r, evs) :=
        apillonInitiateUpload out resp (b.fileName.getD "") (b.contentType.getD "")
          (b.directoryPath.getD "")
      match r with
      | Except.error e => (Except.error e, evs)
      | Except.ok us =>
        if truthyS (sessionUuidOf us) = false ∨ truthyS (firstFileUrl us) = false then
          (Except.ok InitiateResp.initiateFailed, evs)
        else
          (Except.ok (InitiateResp.ok ((sessionUuidOf us).getD "")
            ((firstFileUrl us).getD "") (firstFileUuid us)), evs)

/-- Runtime shape of the complete request body. -/
structure CompleteBody where
  sessionUuid : Option String

/-- Response of the complete endpoint. -/
inductive CompleteResp where
  | missingSessionUuid
  | completeFailed
  | ok
deriving DecidableEq

/-- HTTP status of each complete response. -/
def statusComplete : CompleteResp → Nat
  | CompleteResp.missingSessionUuid => 400
  | CompleteResp.completeFailed => 500
  | CompleteResp.ok => 200

/-- Embedding of `handleCompleteUpload`. -/
def handleCompleteUpload (body : Except String CompleteBody)
    (out : HttpOutcome) (resp : ApillonCompleteResponse) :
    Except String CompleteResp × List Event :=
  match body with
  | Except.error e => (Except.error e, [])
  | Except.ok b =>
    if truthyS b.sessionUuid = false then
      (Except.ok CompleteResp.missingSessionUuid, [])
    else
      let (r, evs) := apillonCompleteUpload out resp (b.sessionUuid.getD "")
      match r with
      | Except.error e => (Except.error e, evs)
      | Except.ok cr =>
        if completeSuccessOf cr = false then
          (Except.ok CompleteResp.completeFailed, evs)
        else (Except.ok CompleteResp.ok, evs)

/-- The allow-list parsed from configuration: split on commas and trim. -/
def allowedOriginsOf (env : Env) : List String :=
  (env.ALLOWED_ORIGINS.splitOn ",").map (·.trim)

/-- The origin guard of the worker: the header must be present, truthy and a
member of the configured allow-list. -/
def originAllowed (origin : Option String) (env : Env) : Bool :=
  match origin with
  | none => false
  | some og => og ≠ "" ∧ (allowedOriginsOf env).contains og

/-- Top-level worker response, one constructor per outcome of `fetch`. -/
inductive WorkerResult where
  | corsDenied
  | corsOk
  | unauthorizedOrigin
  | invalidEndpoint
  | internalError (details : String)
  | initiate (r : InitiateResp)
  | complete (r : CompleteResp)
  | syncResp (r : SyncResp)
deriving DecidableEq

/-- HTTP status of each worker response. -/
def statusOf : WorkerResult → Nat
  | WorkerResult.corsDenied => 403
  | WorkerResult.corsOk => 204
  | WorkerResult.unauthorizedOrigin => 403
  | WorkerResult.invalidEndpoint => 404
  | WorkerResult.internalError _ => 500
  | WorkerResult.initiate r => statusInitiate r
  | WorkerResult.complete r => statusComplete r
  | WorkerResult.syncResp r => statusSync r

/-- Embedding of `handleCORS`: answer the preflight with 403 for an absent
or disallowed origin and 204 with the capability headers otherwise. -/
def handleCORS (origin : Option String) (env : Env) : WorkerResult :=
  if originAllowed origin env = false then WorkerResult.corsDenied
  else WorkerResult.corsOk

/-- All oracle inputs of one worker invocation: the parsed request bodies
of the three endpoints and the responses of every backend round trip. -/
structure WorkerOracle where
  initBody : Except String InitiateBody
  complBody : Except String CompleteBody
  syncBody : Except String AddressesField
  initOut : HttpOutcome
  initResp : ApillonUploadResponse
  complOut : HttpOutcome
  complResp : ApillonCompleteResponse
  listOut : HttpOutcome
  items : List ApillonItem
  mv : Nat → MoveOracle

/-- Embedding of the top-level `fetch` handler: answer preflight via
`handleCORS`, enforce the origin guard before any routing, then dispatch on
the path; an error thrown by a routed handler is caught and mapped to the
500 internal error response. -/
def workerFetch (method path : String) (origin : Option String) (env : Env)
    (o : WorkerOracle) : WorkerResult × List Event :=
  if method = "OPTIONS" then (handleCORS origin env, [])
  else if originAllowed origin env = false then
    (WorkerResult.unauthorizedOrigin, [])
  else if path = "/initiate" then
    match handleInitiateUpload o.initBody o.initOut o.initResp with
    | (Except.ok r, evs) => (WorkerResult.initiate r, evs)
    | (Except.error e, evs) => (WorkerResult.internalError e, evs)
  else if path = "/complete" then
    match handleCompleteUpload o.complBody o.complOut o.complResp with
    | (Except.ok r, evs) => (WorkerResult.complete r, evs)
    | (Except.error e, evs) => (WorkerResult.internalError e, evs)
  else if path = "/sync-approved-members" then
    let (r, evs) := handleSyncApprovedMembers method o.syncBody o.listOut o.items o.mv
    (WorkerResult.syncResp r, evs)
  else (WorkerResult.invalidEndpoint, [])

/-- The pending map the sync handler builds from one bucket listing. -/
def pendingMapOf (items : List ApillonItem) : List (String × PendingInfo) :=
  buildPendingMap (listFilesInFolder items "pending")

/-- Total number of entries for one address across the three result lists. -/
def resultAddrCount (r : SyncResult) (a : String) : Nat :=
  (r.moved.map MovedEntry.address).count a +
    (r.skipped.map SkippedEntry.address).count a +
    (r.errors.map ErrorEntry.address).count a

/-- Entry total of one address for a whole sync response (zero when the
response is not the 200 result). -/
def syncRespAddrCount : SyncResp → String → Nat
  | SyncResp.ok r, a => resultAddrCount r a
  | _, _ => 0

/-- A healthy HTTP outcome fixture. -/
def okOut : HttpOutcome := ⟨true, ""⟩

/-- A well-formed initiate-upload response fixture. -/
def goodUploadResp : ApillonUploadResponse :=
  ⟨some ⟨some "s-1", [⟨some "https://signed.example/put", some "f-1"⟩]⟩⟩

/-- A move oracle in which every round trip succeeds. -/
def mvAllOk : MoveOracle :=
  ⟨true, "", some "image/jpeg", okOut, goodUploadResp, true, "",
   okOut, ⟨some ⟨true⟩⟩, okOut⟩

/-- A move oracle in which the initial download fails. -/
def mvFetchFail : MoveOracle :=
  ⟨false, "Not Found", some "image/jpeg", okOut, goodUploadResp, true, "",
   okOut, ⟨some ⟨true⟩⟩, okOut⟩

/-- A bucket listing fixture with one pending and one approved object. -/
def itemsEx : List ApillonItem :=
  [⟨"ADDR1.jpg", "u-1", some "pending/", some "https://link1", none, some "cid1"⟩,
   ⟨"OTHER.png", "u-2", some "approved/", none, none, none⟩]

/-- An environment fixture. -/
def envEx : Env := ⟨"key", "secret", "bucket", "https://kappasigmamu.github.io"⟩

/-- A worker oracle fixture. -/
def oracleEx : WorkerOracle :=
  ⟨Except.ok ⟨some "a.jpg", some "image/jpeg", some "pending"⟩,
   Except.ok ⟨some "s-1"⟩, Except.ok (AddressesField.arr ["ADDR1"]),
   okOut, goodUploadResp, okOut, ⟨some ⟨true⟩⟩, okOut, itemsEx, fun _ => mvAllOk⟩

/-! Helper lemmas shared by the claim theorems. -/

/-- A successful split is at the last dot: the input is base, dot, suffix,
and the suffix is nonempty and dot-free. -/
theorem splitLastDot_eq_some (cs : List Char) :
    ∀ b e, splitLastDot cs = some (b, e) →
      cs = b ++ '.' :: e ∧ e ≠ [] ∧ e.contains '.' = false := by
  induction cs with
  | nil => intro b e h; simp [splitLastDot] at h
  | cons c cs ih =>
    intro b e h
    simp only [splitLastDot] at h
    cases hrec : splitLastDot cs with
    | some p =>
      obtain ⟨b', e'⟩ := p
      rw [hrec] at h
      simp only [Option.some.injEq, Prod.mk.injEq] at h
      obtain ⟨hb, he⟩ := h
      obtain ⟨hcs, hne, hnd⟩ := ih b' e' hrec
      subst hb he
      exact ⟨by simp [hcs], hne, hnd⟩
    | none =>
      rw [hrec] at h
      by_cases hc : c = '.' ∧ cs ≠ [] ∧ cs.contains '.' = false
      · rw [if_pos hc] at h
        simp only [Option.some.injEq, Prod.mk.injEq] at h
        obtain ⟨hb, he⟩ := h
        subst hb he
        exact ⟨by simp [hc.1], hc.2.1, hc.2.2⟩
      · rw [if_neg hc] at h
        exact absurd h (by simp)

/-- A character list without a dot has no split. -/
theorem splitLastDot_of_no_dot (cs : List Char) (h : cs.contains '.' = false) :
    splitLastDot cs = none := by
  induction cs with
  | nil => rfl
  | cons c cs ih =>
    simp only [List.contains_cons, Bool.or_eq_false_iff, beq_eq_false_iff_ne] at h
    simp only [splitLastDot, ih h.2]
    rw [if_neg]
    intro hc
    exact h.1 hc.1.symm

/-- Reading back through a map update. -/
theorem mapGet_mapSet (m : List (String × PendingInfo)) (k : String)
    (v : PendingInfo) (a : String) :
    mapGet (mapSet m k v) a = if k = a then some v else mapGet m a := by
  induction m with
  | nil =>
    by_cases hka : k = a <;> simp [mapSet, mapGet, hka]
  | cons p rest ih =>
    obtain ⟨k₀, v₀⟩ := p
    by_cases h₀ : k₀ = k
    · subst h₀
      by_cases hka : k₀ = a <;> simp [mapSet, mapGet, hka]
    · by_cases hka : k₀ = a
      · subst hka
        have hk : ¬ k = k₀ := fun h => h₀ h.symm
        simp [mapSet, mapGet, h₀, hk, ih]
      · simp [mapSet, mapGet, h₀, hka, ih]

/-- Every entry readable from the pending map was put there by a listed file
whose name matched the address-dot-extension pattern. -/
theorem buildPendingMap_sourced (files : List ListedFile) :
    ∀ a fi, mapGet (buildPendingMap files) a = some fi →
      ∃ f, f ∈ files ∧ fi.fileName = f.name ∧
        matchNameExt f.name = some (a, fi.extension) := by
  have aux : ∀ (fs : List ListedFile) (acc : List (String × PendingInfo)) a fi,
      mapGet (fs.foldl (fun m f =>
        match matchNameExt f.name with
        | some (address, extension) =>
          mapSet m address ⟨f.name, f.uuid, extension, f.link⟩
        | none => m) acc) a = some fi →
      mapGet acc a = some fi ∨
        ∃ f, f ∈ fs ∧ fi.fileName = f.name ∧
          matchNameExt f.name = some (a, fi.extension) := by
    intro fs
    induction fs with
    | nil => intro acc a fi h; exact Or.inl h
    | cons f fs ih =>
      intro acc a fi h
      simp only [List.foldl_cons] at h
      cases hm : matchNameExt f.name with
      | none =>
        rw [hm] at h
        rcases ih _ a fi h with h' | ⟨g, hg, h1, h2⟩
        · exact Or.inl h'
        · exact Or.inr ⟨g, List.mem_cons_of_mem _ hg, h1, h2⟩
      | some p =>
        obtain ⟨address, extension⟩ := p
        rw [hm] at h
        rcases ih _ a fi h with h' | ⟨g, hg, h1, h2⟩
        · rw [mapGet_mapSet] at h'
          by_cases hk : address = a
          · rw [if_pos hk] at h'
            subst hk
            refine Or.inr ⟨f, List.mem_cons_self _ _, ?_, ?_⟩
            · cases h'; rfl
            · cases h'; exact hm
          · rw [if_neg hk] at h'
            exact Or.inl h'
        · exact Or.inr ⟨g, List.mem_cons_of_mem _ hg, h1, h2⟩
  intro a fi h
  rcases aux files [] a fi h with h' | h'
  · simp [mapGet] at h'
  · exact h'

/-- Each processed address contributes exactly one entry, so the entry
total per address equals its multiplicity in the processed list. -/
theorem syncLoop_addrCount (mv : Nat → MoveOracle)
    (pmap : List (String × PendingInfo)) :
    ∀ (addrs : List String) (i : Nat) (a : String),
      resultAddrCount (syncLoop mv pmap i addrs).1 a = addrs.count a := by
  intro addrs
  induction addrs with
  | nil => intro i a; simp [syncLoop, resultAddrCount]
  | cons x rest ih =>
    intro i a
    rcases hrec : syncLoop mv pmap (i + 1) rest with ⟨r, evs⟩
    have ihx : resultAddrCount r a = rest.count a := by
      have := ih (i + 1) a
      rw [hrec] at this
      exact this
    simp only [syncLoop, hrec]
    cases hget : mapGet pmap x with
    | none =>
      simp only [resultAddrCount, List.map_cons, List.count_cons] at *
      simp [List.count_cons, ihx.symm]
      omega
    | some fi =>
      rcases hmf : moveFile (mv i) ("pending/" ++ fi.fileName)
          ("approved/" ++ fi.fileName) fi.fileUuid fi.link with ⟨mres, mevs⟩
      cases mres with
      | ok _ =>
        simp only [hmf, resultAddrCount, List.map_cons, List.count_cons] at *
        simp [List.count_cons, ihx.symm]
        omega
      | error e =>
        simp only [hmf, resultAddrCount, List.map_cons, List.count_cons] at *
        simp [List.count_cons, ihx.symm]
        omega

/-- Unfolding of the loop on an address with no pending entry. -/
theorem syncLoop_cons_none (mv : Nat → MoveOracle)
    (pmap : List (String × PendingInfo)) (i : Nat) (x : String)
    (rest : List String) (h : mapGet pmap x = none) :
    syncLoop mv pmap i (x :: rest)
      = ({ (syncLoop mv pmap (i + 1) rest).1 with
            skipped := ⟨x, "No pending image found"⟩ ::
              (syncLoop mv pmap (i + 1) rest).1.skipped },
         (syncLoop mv pmap (i + 1) rest).2) := by
  rcases hrec : syncLoop mv pmap (i + 1) rest with ⟨r, evs⟩
  simp [syncLoop, hrec, h]

/-- Unfolding of the loop on an address whose move succeeds. -/
theorem syncLoop_cons_some_ok (mv : Nat → MoveOracle)
    (pmap : List (String × PendingInfo)) (i : Nat) (x : String)
    (rest : List String) (fi : PendingInfo) (u : Unit) (mevs : List Event)
    (h : mapGet pmap x = some fi)
    (hmf : moveFile (mv i) ("pending/" ++ fi.fileName)
      ("approved/" ++ fi.fileName) fi.fileUuid fi.link = (Except.ok u, mevs)) :
    syncLoop mv pmap i (x :: rest)
      = ({ (syncLoop mv pmap (i + 1) rest).1 with
            moved := ⟨x, "pending/" ++ fi.fileName, "approved/" ++ fi.fileName⟩ ::
              (syncLoop mv pmap (i + 1) rest).1.moved },
         mevs ++ (syncLoop mv pmap (i + 1) rest).2) := by
  rcases hrec : syncLoop mv pmap (i + 1) rest with ⟨r, evs⟩
  simp [syncLoop, hrec, h, hmf]

/-- Unfolding of the loop on an address whose move throws. -/
theorem syncLoop_cons_some_error (mv : Nat → MoveOracle)
    (pmap : List (String × PendingInfo)) (i : Nat) (x : String)
    (rest : List String) (fi : PendingInfo) (e : String) (mevs : List Event)
    (h : mapGet pmap x = some fi)
    (hmf : moveFile (mv i) ("pending/" ++ fi.fileName)
      ("approved/" ++ fi.fileName) fi.fileUuid fi.link = (Except.error e, mevs)) :
    syncLoop mv pmap i (x :: rest)
      = ({ (syncLoop mv pmap (i + 1) rest).1 with
            errors := ⟨x, e⟩ :: (syncLoop mv pmap (i + 1) rest).1.errors },
         mevs ++ (syncLoop mv pmap (i + 1) rest).2) := by
  rcases hrec : syncLoop mv pmap (i + 1) rest with ⟨r, evs⟩
  simp [syncLoop, hrec, h, hmf]

/-- A processed address whose move fails with an error has that error
recorded against it in the errors list. -/
theorem syncLoop_error_recorded (mv : Nat → MoveOracle)
    (pmap : List (String × PendingInfo)) :
    ∀ (addrs : List String) (i j : Nat) (a : String) (fi : PendingInfo) (e : String),
      addrs[j]? = some a → mapGet pmap a = some fi →
      (moveFile (mv (i + j)) ("pending/" ++ fi.fileName)
        ("approved/" ++ fi.fileName) fi.fileUuid fi.link).1 = Except.error e →
      ErrorEntry.mk a e ∈ (syncLoop mv pmap i addrs).1.errors := by
  intro addrs
  induction addrs with
  | nil => intro i j a fi e hj; simp at hj
  | cons x rest ih =>
    intro i j a fi e hj hget hmv
    cases j with
    | zero =>
      simp only [List.getElem?_cons_zero, Option.some.injEq] at hj
      subst hj
      simp only [Nat.add_zero] at hmv
      rcases hmf : moveFile (mv i) ("pending/" ++ fi.fileName)
          ("approved/" ++ fi.fileName) fi.fileUuid fi.link with ⟨mres, mevs⟩
      rw [hmf] at hmv
      simp only at hmv
      subst hmv
      rw [syncLoop_cons_some_error mv pmap i x rest fi e mevs hget hmf]
      exact List.mem_cons_self _ _
    | succ j =>
      simp only [List.getElem?_cons_succ] at hj
      have hmv' : (moveFile (mv ((i + 1) + j)) ("pending/" ++ fi.fileName)
          ("approved/" ++ fi.fileName) fi.fileUuid fi.link).1 = Except.error e := by
        have harith : (i + 1) + j = i + (j + 1) := by omega
        rw [harith]
        exact hmv
      have hmem := ih (i + 1) j a fi e hj hget hmv'
      cases hget₀ : mapGet pmap x with
      | none =>
        rw [syncLoop_cons_none mv pmap i x rest hget₀]
        exact hmem
      | some fi₀ =>
        rcases hmf : moveFile (mv i) ("pending/" ++ fi₀.fileName)
            ("approved/" ++ fi₀.fileName) fi₀.fileUuid fi₀.link with ⟨mres, mevs⟩
        cases mres with
        | ok u =>
          rw [syncLoop_cons_some_ok mv pmap i x rest fi₀ u mevs hget₀ hmf]
          exact hmem
        | error e₀ =>
          rw [syncLoop_cons_some_error mv pmap i x rest fi₀ e₀ mevs hget₀ hmf]
          exact List.mem_cons_of_mem _ hmem

/-- A processed address with no pending entry is recorded as skipped with
the literal reason string of the code. -/
theorem syncLoop_skipped_mem (mv : Nat → MoveOracle)
    (pmap : List (String × PendingInfo)) :
    ∀ (addrs : List String) (i : Nat) (a : String),
      a ∈ addrs → mapGet pmap a = none →
      SkippedEntry.mk a "No pending image found" ∈ (syncLoop mv pmap i addrs).1.skipped := by
  intro addrs
  induction addrs with
  | nil => intro i a ha; simp at ha
  | cons x rest ih =>
    intro i a ha hget
    rcases List.mem_cons.1 ha with hax | ha'
    · subst hax
      rw [syncLoop_cons_none mv pmap i a rest hget]
      exact List.mem_cons_self _ _
    · have hmem := ih (i + 1) a ha' hget
      cases hget₀ : mapGet pmap x with
      | none =>
        rw [syncLoop_cons_none mv pmap i x rest hget₀]
        exact List.mem_cons_of_mem _ hmem
      | some fi₀ =>
        rcases hmf : moveFile (mv i) ("pending/" ++ fi₀.fileName)
            ("approved/" ++ fi₀.fileName) fi₀.fileUuid fi₀.link with ⟨mres, mevs⟩
        cases mres with
        | ok u =>
          rw [syncLoop_cons_some_ok mv pmap i x rest fi₀ u mevs hget₀ hmf]
          exact hmem
        | error e₀ =>
          rw [syncLoop_cons_some_error mv pmap i x rest fi₀ e₀ mevs hget₀ hmf]
          exact hmem

/-- Every moved entry names an address present in the pending map. -/
theorem syncLoop_moved_has_pending (mv : Nat → MoveOracle)
    (pmap : List (String × PendingInfo)) :
    ∀ (addrs : List String) (i : Nat) (m : MovedEntry),
      m ∈ (syncLoop mv pmap i addrs).1.moved → mapGet pmap m.address ≠ none := by
  intro addrs
  induction addrs with
  | nil => intro i m hm; simp [syncLoop] at hm
  | cons x rest ih =>
    intro i m hm
    cases hget₀ : mapGet pmap x with
    | none =>
      rw [syncLoop_cons_none mv pmap i x rest hget₀] at hm
      exact ih (i + 1) m hm
    | some fi₀ =>
      rcases hmf : moveFile (mv i) ("pending/" ++ fi₀.fileName)
          ("approved/" ++ fi₀.fileName) fi₀.fileUuid fi₀.link with ⟨mres, mevs⟩
      cases mres with
      | ok u =>
        rw [syncLoop_cons_some_ok mv pmap i x rest fi₀ u mevs hget₀ hmf] at hm
        rcases List.mem_cons.1 hm with hm | hm
        · subst hm; simp [hget₀]
        · exact ih (i + 1) m hm
      | error e₀ =>
        rw [syncLoop_cons_some_error mv pmap i x rest fi₀ e₀ mevs hget₀ hmf] at hm
        exact ih (i + 1) m hm

/-- Every error entry names an address present in the pending map. -/
theorem syncLoop_errors_has_pending (mv : Nat → MoveOracle)
    (pmap : List (String × PendingInfo)) :
    ∀ (addrs : List String) (i : Nat) (m : ErrorEntry),
      m ∈ (syncLoop mv pmap i addrs).1.errors → mapGet pmap m.address ≠ none := by
  intro addrs
  induction addrs with
  | nil => intro i m hm; simp [syncLoop] at hm
  | cons x rest ih =>
    intro i m hm
    cases hget₀ : mapGet pmap x with
    | none =>
      rw [syncLoop_cons_none mv pmap i x rest hget₀] at hm
      exact ih (i + 1) m hm
    | some fi₀ =>
      rcases hmf : moveFile (mv i) ("pending/" ++ fi₀.fileName)
          ("approved/" ++ fi₀.fileName) fi₀.fileUuid fi₀.link with ⟨mres, mevs⟩
      cases mres with
      | ok u =>
        rw [syncLoop_cons_some_ok mv pmap i x rest fi₀ u mevs hget₀ hmf] at hm
        exact ih (i + 1) m hm
      | error e₀ =>
        rw [syncLoop_cons_some_error mv pmap i x rest fi₀ e₀ mevs hget₀ hmf] at hm
        rcases List.mem_cons.1 hm with hm | hm
        · subst hm; simp [hget₀]
        · exact ih (i + 1) m hm

/-- Unfolding of the sync handler on a valid POST with a nonempty array and
a healthy listing. -/
theorem handleSync_post_arr (addrs : List String) (listOut : HttpOutcome)
    (items : List ApillonItem) (mv : Nat → MoveOracle)
    (hne : addrs ≠ []) (hok : listOut.ok = true) :
    handleSyncApprovedMembers "POST" (Except.ok (AddressesField.arr addrs))
        listOut items mv
      = (SyncResp.ok (syncLoop mv (pendingMapOf items) 0 (addrs.take 50)).1,
         Event.apilList :: (syncLoop mv (pendingMapOf items) 0 (addrs.take 50)).2) := by
  rcases hrec : syncLoop mv (pendingMapOf items) 0 (addrs.take 50) with ⟨r, evs⟩
  have hrec' : syncLoop mv (buildPendingMap (listFilesInFolder items "pending")) 0
      (addrs.take 50) = (r, evs) := hrec
  simp [handleSyncApprovedMembers, hne, hok, pendingMapOf, hrec', hrec,
    List.length_eq_zero]

/-- Inversion of the sync handler: a 200 result means the request was valid,
the listing succeeded, and the result is the loop output on the truncated
addresses. -/
theorem handleSync_ok_inv (addrs : List String) (listOut : HttpOutcome)
    (items : List ApillonItem) (mv : Nat → MoveOracle) (r : SyncResult)
    (h : (handleSyncApprovedMembers "POST" (Except.ok (AddressesField.arr addrs))
        listOut items mv).1 = SyncResp.ok r) :
    addrs ≠ [] ∧ listOut.ok = true ∧
      r = (syncLoop mv (pendingMapOf items) 0 (addrs.take 50)).1 := by
  by_cases hne : addrs = []
  · subst hne
    simp [handleSyncApprovedMembers] at h
  · by_cases hok : listOut.ok = true
    · rw [handleSync_post_arr addrs listOut items mv hne hok] at h
      simp only [SyncResp.ok.injEq] at h
      exact ⟨hne, hok, h.symm⟩
    · have hok' : listOut.ok = false := by
        cases hcase : listOut.ok
        · rfl
        · exact absurd hcase hok
      simp [handleSyncApprovedMembers, hne, hok', List.length_eq_zero] at h

/-! Claim theorems. -/

/-- C2: the Move Engine deletes the source object only after download,
upload-session initiation, byte transfer and session completion have all
succeeded, and the delete is the last backend call; any failure in those
earlier steps raises an error without deleting the source; an absent
retrieval link fails before any backend call at all. -/
theorem moveFile_delete_only_after_success (o : MoveOracle)
    (fromPath toPath fileUuid : String) (fileLink : Option String) :
    (fileLink = none →
      moveFile o fromPath toPath fileUuid fileLink
        = (Except.error "File link is required to download file", [])) ∧
    (Event.apilDelete fileUuid ∈ (moveFile o fromPath toPath fileUuid fileLink).2 →
      o.fetchOk = true ∧ o.initOut.ok = true ∧
      truthyS (sessionUuidOf o.initResp) = true ∧
      truthyS (firstFileUrl o.initResp) = true ∧
      o.putOk = true ∧ o.complOut.ok = true ∧
      ∃ l fn ct tf u sess,
        (moveFile o fromPath toPath fileUuid fileLink).2
          = [Event.fetchUrl l, Event.apilInitiate fn ct tf, Event.putUpload u,
             Event.apilComplete sess, Event.apilDelete fileUuid]) ∧
    ((o.fetchOk = false ∨ o.initOut.ok = false ∨
      truthyS (sessionUuidOf o.initResp) = false ∨
      truthyS (firstFileUrl o.initResp) = false ∨
      o.putOk = false ∨ o.complOut.ok = false) →
      (∃ e, (moveFile o fromPath toPath fileUuid fileLink).1 = Except.error e) ∧
      Event.apilDelete fileUuid ∉ (moveFile o fromPath toPath fileUuid fileLink).2) := by
  cases fileLink with
  | none =>
    refine ⟨fun _ => rfl, ?_, ?_⟩
    · intro hmem
      simp [moveFile] at hmem
    · intro _
      exact ⟨⟨"File link is required to download file", rfl⟩, by simp [moveFile]⟩
  | some l =>
    refine ⟨fun h => by simp at h, ?_, ?_⟩
    · intro hmem
      cases hF : o.fetchOk with
      | false => simp [moveFile, hF] at hmem
      | true =>
        cases hI : o.initOut.ok with
        | false =>
          simp [moveFile, apillonInitiateUpload, hF, hI] at hmem
        | true =>
          cases hS : truthyS (sessionUuidOf o.initResp) with
          | false =>
            simp [moveFile, apillonInitiateUpload, hF, hI, hS] at hmem
          | true =>
            cases hU : truthyS (firstFileUrl o.initResp) with
            | false =>
              simp [moveFile, apillonInitiateUpload, hF, hI, hS, hU] at hmem
            | true =>
              cases hP : o.putOk with
              | false =>
                simp [moveFile, apillonInitiateUpload, hF, hI, hS, hU, hP] at hmem
              | true =>
                cases hC : o.complOut.ok with
                | false =>
                  simp [moveFile, apillonInitiateUpload, apillonCompleteUpload,
                    hF, hI, hS, hU, hP, hC] at hmem
                | true =>
                  refine ⟨rfl, rfl, rfl, rfl, rfl, rfl, l,
                    jsOrD (toPath.splitOn "/").getLast? "unknown",
                    jsOrD o.fetchContentType "application/octet-stream",
                    (toPath.splitOn "/").headD "",
                    (firstFileUrl o.initResp).getD "",
                    (sessionUuidOf o.initResp).getD "", ?_⟩
                  simp [moveFile, apillonInitiateUpload, apillonCompleteUpload,
                    deleteApillonFile, hF, hI, hS, hU, hP, hC]
    · intro hbad
      cases hF : o.fetchOk with
      | false =>
        refine ⟨⟨"Failed to download file: " ++ o.fetchStatusText, ?_⟩, ?_⟩
        · simp [moveFile, hF]
        · simp [moveFile, hF]
      | true =>
        cases hI : o.initOut.ok with
        | false =>
          refine ⟨⟨"Apillon initiate upload failed: " ++ o.initOut.errorText, ?_⟩, ?_⟩
          · simp [moveFile, apillonInitiateUpload, hF, hI]
          · simp [moveFile, apillonInitiateUpload, hF, hI]
        | true =>
          cases hS : truthyS (sessionUuidOf o.initResp) with
          | false =>
            refine ⟨⟨"Failed to initiate upload to new location", ?_⟩, ?_⟩
            · simp [moveFile, apillonInitiateUpload, hF, hI, hS]
            · simp [moveFile, apillonInitiateUpload, hF, hI, hS]
          | true =>
            cases hU : truthyS (firstFileUrl o.initResp) with
            | false =>
              refine ⟨⟨"Failed to initiate upload to new location", ?_⟩, ?_⟩
              · simp [moveFile, apillonInitiateUpload, hF, hI, hS, hU]
              · simp [moveFile, apillonInitiateUpload, hF, hI, hS, hU]
            | true =>
              cases hP : o.putOk with
              | false =>
                refine ⟨⟨"Failed to upload file: " ++ o.putStatusText, ?_⟩, ?_⟩
                · simp [moveFile, apillonInitiateUpload, hF, hI, hS, hU, hP]
                · simp [moveFile, apillonInitiateUpload, hF, hI, hS, hU, hP]
              | true =>
                cases hC : o.complOut.ok with
                | false =>
                  refine ⟨⟨"Apillon complete upload failed: " ++ o.complOut.errorText,
                    ?_⟩, ?_⟩
                  · simp [moveFile, apillonInitiateUpload, apillonCompleteUpload,
                      hF, hI, hS, hU, hP, hC]
                  · simp [moveFile, apillonInitiateUpload, apillonCompleteUpload,
                      hF, hI, hS, hU, hP, hC]
                | true =>
                  simp [hF, hI, hS, hU, hP, hC] at hbad

/-- Witness for C2 at a concrete oracle whose download fails: the move
raises an error and the source object is not deleted. -/
theorem moveFile_delete_only_after_success_witness :
    (∃ e, (moveFile mvFetchFail "pending/ADDR1.jpg" "approved/ADDR1.jpg" "u-1"
      (some "https://link1")).1 = Except.error e) ∧
    Event.apilDelete "u-1" ∉ (moveFile mvFetchFail "pending/ADDR1.jpg"
      "approved/ADDR1.jpg" "u-1" (some "https://link1")).2 :=
  (moveFile_delete_only_after_success mvFetchFail "pending/ADDR1.jpg"
    "approved/ADDR1.jpg" "u-1" (some "https://link1")).2.2 (Or.inl rfl)

/-- C4: a request whose origin fails the guard gets a 403 on every method
and path, including the OPTIONS preflight, with zero backend calls. -/
theorem origin_guard_rejects (method path : String) (origin : Option String)
    (env : Env) (o : WorkerOracle) (h : originAllowed origin env = false) :
    statusOf (workerFetch method path origin env o).1 = 403 ∧
    (workerFetch method path origin env o).2 = [] := by
  by_cases hm : method = "OPTIONS"
  · subst hm
    simp [workerFetch, handleCORS, h, statusOf]
  · simp [workerFetch, hm, h, statusOf]

/-- Witness for C4: an absent origin header yields 403 and an empty trace. -/
theorem origin_guard_rejects_witness :
    statusOf (workerFetch "POST" "/initiate" none envEx oracleEx).1 = 403 ∧
    (workerFetch "POST" "/initiate" none envEx oracleEx).2 = [] :=
  origin_guard_rejects "POST" "/initiate" none envEx oracleEx rfl

/-- C3: the sync handler behaves identically (same response, same backend
calls) on an address list and on its first 50 elements, and an address not
among the first 50 appears in none of the three result lists. -/
theorem sync_truncates_to_50 (method : String) (addrs : List String)
    (listOut : HttpOutcome) (items : List ApillonItem) (mv : Nat → MoveOracle) :
    handleSyncApprovedMembers method (Except.ok (AddressesField.arr addrs))
        listOut items mv
      = handleSyncApprovedMembers method
          (Except.ok (AddressesField.arr (addrs.take 50))) listOut items mv ∧
    (∀ r a, (handleSyncApprovedMembers method (Except.ok (AddressesField.arr addrs))
        listOut items mv).1 = SyncResp.ok r →
      a ∉ addrs.take 50 → resultAddrCount r a = 0) := by
  constructor
  · by_cases hm : method = "POST"
    · subst hm
      by_cases hne : addrs = []
      · subst hne; rfl
      · have hne' : addrs.take 50 ≠ [] := by
          intro h
          have hlen := congrArg List.length h
          simp [List.length_take] at hlen
          exact hne hlen
        by_cases hok : listOut.ok = true
        · rw [handleSync_post_arr addrs listOut items mv hne hok,
            handleSync_post_arr (addrs.take 50) listOut items mv hne' hok]
          simp [List.take_take]
        · have hok' : listOut.ok = false := by
            cases hcase : listOut.ok
            · rfl
            · exact absurd hcase hok
          simp [handleSyncApprovedMembers, hne, hne', hok', List.length_eq_zero]
    · simp [handleSyncApprovedMembers, hm]
  · intro r a h hna
    by_cases hm : method = "POST"
    · subst hm
      obtain ⟨hne, hok, hr⟩ := handleSync_ok_inv addrs listOut items mv r h
      subst hr
      rw [syncLoop_addrCount mv (pendingMapOf items) (addrs.take 50) 0 a]
      exact List.count_eq_zero.2 hna
    · exfalso
      simp [handleSyncApprovedMembers, hm] at h

/-- Witness for C3: an address absent from the truncated input has entry
total zero in the result. -/
theorem sync_truncates_to_50_witness :
    resultAddrCount (syncLoop (fun _ => mvAllOk) (pendingMapOf itemsEx) 0
      (List.take 50 ["ADDR1"])).1 "ZZZ" = 0 :=
  (sync_truncates_to_50 "POST" ["ADDR1"] okOut itemsEx (fun _ => mvAllOk)).2
    (syncLoop (fun _ => mvAllOk) (pendingMapOf itemsEx) 0 (List.take 50 ["ADDR1"])).1
    "ZZZ" (by rfl) (by decide)

/-- Counterexample to C1 as stated: with 51 distinct submitted identifiers
and an empty bucket, the 51st identifier appears in none of the three
result lists of the returned 200 response. -/
theorem sync_partition_counterexample :
    "a50" ∈ (List.range 51).map (fun n => "a" ++ Nat.repr n) ∧
    syncRespAddrCount (handleSyncApprovedMembers "POST"
      (Except.ok (AddressesField.arr ((List.range 51).map (fun n => "a" ++ Nat.repr n))))
      okOut [] (fun _ => mvAllOk)).1 "a50" = 0 := by
  decide

/-- C1 amended: each identifier among the first 50 submitted (the processed
prefix after truncation) appears in the three result lists with total
multiplicity equal to its multiplicity in that prefix — one entry per
processed occurrence, so the partition is exhaustive and mutually exclusive
over the processed prefix. -/
theorem sync_partition_amended (addrs : List String) (listOut : HttpOutcome)
    (items : List ApillonItem) (mv : Nat → MoveOracle) (r : SyncResult) (a : String)
    (h : (handleSyncApprovedMembers "POST" (Except.ok (AddressesField.arr addrs))
      listOut items mv).1 = SyncResp.ok r) :
    resultAddrCount r a = (addrs.take 50).count a := by
  obtain ⟨hne, hok, hr⟩ := handleSync_ok_inv addrs listOut items mv r h
  subst hr
  exact syncLoop_addrCount mv (pendingMapOf items) (addrs.take 50) 0 a

/-- Witness for the amended C1 at a concrete two-address request. -/
theorem sync_partition_amended_witness :
    resultAddrCount (syncLoop (fun _ => mvAllOk) (pendingMapOf itemsEx) 0
      (List.take 50 ["ADDR1", "ADDR2"])).1 "ADDR2" = 1 :=
  (sync_partition_amended ["ADDR1", "ADDR2"] okOut itemsEx (fun _ => mvAllOk)
    (syncLoop (fun _ => mvAllOk) (pendingMapOf itemsEx) 0
      (List.take 50 ["ADDR1", "ADDR2"])).1
    "ADDR2" (by rfl)).trans (by decide)

/-- C5: on a valid nonempty address list with a healthy listing, the sync
endpoint returns 200 whatever the per-item move outcomes are; every
processed identifier still gets exactly one entry, and an identifier whose
move throws has that error recorded in the errors list. -/
theorem sync_partial_failure_isolated (addrs : List String) (listOut : HttpOutcome)
    (items : List ApillonItem) (mv : Nat → MoveOracle)
    (hne : addrs ≠ []) (hok : listOut.ok = true) :
    ∃ r, (handleSyncApprovedMembers "POST" (Except.ok (AddressesField.arr addrs))
        listOut items mv).1 = SyncResp.ok r ∧
      statusSync (handleSyncApprovedMembers "POST"
        (Except.ok (AddressesField.arr addrs)) listOut items mv).1 = 200 ∧
      (∀ a, resultAddrCount r a = (addrs.take 50).count a) ∧
      (∀ j a fi e, (addrs.take 50)[j]? = some a →
        mapGet (pendingMapOf items) a = some fi →
        (moveFile (mv j) ("pending/" ++ fi.fileName) ("approved/" ++ fi.fileName)
          fi.fileUuid fi.link).1 = Except.error e →
        ErrorEntry.mk a e ∈ r.errors) := by
  refine ⟨(syncLoop mv (pendingMapOf items) 0 (addrs.take 50)).1, ?_, ?_, ?_, ?_⟩
  · rw [handleSync_post_arr addrs listOut items mv hne hok]
  · rw [handleSync_post_arr addrs listOut items mv hne hok]; rfl
  · intro a
    exact syncLoop_addrCount mv (pendingMapOf items) (addrs.take 50) 0 a
  · intro j a fi e hj hget hmv
    have hmv' : (moveFile (mv (0 + j)) ("pending/" ++ fi.fileName)
        ("approved/" ++ fi.fileName) fi.fileUuid fi.link).1 = Except.error e := by
      rw [Nat.zero_add]; exact hmv
    exact syncLoop_error_recorded mv (pendingMapOf items) (addrs.take 50) 0 j a fi e
      hj hget hmv'

/-- Witness for C5: one address whose move download fails still yields a
200 response with the failure recorded per item. -/
theorem sync_partial_failure_isolated_witness :
    ∃ r, (handleSyncApprovedMembers "POST" (Except.ok (AddressesField.arr ["ADDR1"]))
        okOut itemsEx (fun _ => mvFetchFail)).1 = SyncResp.ok r ∧
      statusSync (handleSyncApprovedMembers "POST"
        (Except.ok (AddressesField.arr ["ADDR1"])) okOut itemsEx
        (fun _ => mvFetchFail)).1 = 200 ∧
      (∀ a, resultAddrCount r a = ((["ADDR1"] : List String).take 50).count a) ∧
      (∀ (j : Nat) (a : String) (fi : PendingInfo) (e : String),
        ((["ADDR1"] : List String).take 50)[j]? = some a →
        mapGet (pendingMapOf itemsEx) a = some fi →
        (moveFile ((fun _ => mvFetchFail) j) ("pending/" ++ fi.fileName)
          ("approved/" ++ fi.fileName) fi.fileUuid fi.link).1 = Except.error e →
        ErrorEntry.mk a e ∈ r.errors) :=
  sync_partial_failure_isolated ["ADDR1"] okOut itemsEx (fun _ => mvFetchFail)
    (by decide) rfl

/-- C10: a POST body whose addresses field is missing, not an array, or an
empty array yields the 400 invalid-addresses response with no backend
call. -/
theorem sync_invalid_addresses_400 (listOut : HttpOutcome)
    (items : List ApillonItem) (mv : Nat → MoveOracle) (field : AddressesField)
    (h : field = AddressesField.missing ∨ field = AddressesField.notArray ∨
      field = AddressesField.arr []) :
    handleSyncApprovedMembers "POST" (Except.ok field) listOut items mv
      = (SyncResp.invalidAddresses, []) ∧
    statusSync SyncResp.invalidAddresses = 400 ∧
    syncErrMsg SyncResp.invalidAddresses = some "Invalid addresses array" := by
  rcases h with h | h | h <;> subst h <;> exact ⟨rfl, rfl, rfl⟩

/-- Witness for C10 at a body without an addresses field. -/
theorem sync_invalid_addresses_400_witness :
    handleSyncApprovedMembers "POST" (Except.ok AddressesField.missing) okOut []
        (fun _ => mvAllOk)
      = (SyncResp.invalidAddresses, []) ∧
    statusSync SyncResp.invalidAddresses = 400 ∧
    syncErrMsg SyncResp.invalidAddresses = some "Invalid addresses array" :=
  sync_invalid_addresses_400 okOut [] (fun _ => mvAllOk) AddressesField.missing
    (Or.inl rfl)

/-- Counterexample to C6 as stated: a request with all three fields present
and directoryPath equal to the claimed recognized folder rejected gets the
400 invalid-directoryPath response, so validation does not pass on the
whole set pending, approved, rejected. -/
theorem initiate_rejected_folder_counterexample :
    handleInitiateUpload
        (Except.ok ⟨some "ADDR1.jpg", some "image/jpeg", some "rejected"⟩)
        okOut goodUploadResp
      = (Except.ok InitiateResp.invalidDirectoryPath, []) ∧
    statusInitiate InitiateResp.invalidDirectoryPath = 400 :=
  ⟨rfl, rfl⟩

/-- C6 amended: the initiate operation returns a 400 validation response
exactly when fileName, contentType or directoryPath is absent or empty, or
directoryPath is not one of pending and approved; with all three present
and nonempty and directoryPath in that two-element set, validation passes
and no 400 response is produced. -/
theorem initiate_validation_amended :
    (∀ (b : InitiateBody) (out : HttpOutcome) (resp : ApillonUploadResponse),
      ((handleInitiateUpload (Except.ok b) out resp).1
          = Except.ok InitiateResp.missingFields ∨
        (handleInitiateUpload (Except.ok b) out resp).1
          = Except.ok InitiateResp.invalidDirectoryPath)
        ↔ ¬ (truthyS b.fileName = true ∧ truthyS b.contentType = true ∧
          (b.directoryPath = some "pending" ∨ b.directoryPath = some "approved"))) ∧
    (∀ v, statusInitiate v = 400 ↔
      (v = InitiateResp.missingFields ∨ v = InitiateResp.invalidDirectoryPath)) := by
  constructor
  · intro b out resp
    cases hf : truthyS b.fileName with
    | false =>
      simp [handleInitiateUpload, hf]
    | true =>
      cases hc : truthyS b.contentType with
      | false =>
        simp [handleInitiateUpload, hf, hc]
      | true =>
        by_cases hd : b.directoryPath = some "pending" ∨ b.directoryPath = some "approved"
        · have hdt : truthyS b.directoryPath = true := by
            rcases hd with h | h <;> rw [h] <;> rfl
          have hne : ¬ (b.directoryPath ≠ some "pending" ∧
              b.directoryPath ≠ some "approved") := by
            rcases hd with h | h <;> simp [h]
          constructor
          · rintro (h | h) <;>
              cases ho : out.ok <;>
                cases hS : truthyS (sessionUuidOf resp) <;>
                  cases hU : truthyS (firstFileUrl resp) <;>
                    simp [handleInitiateUpload, apillonInitiateUpload, hf, hc, hdt,
                      hne, ho, hS, hU] at h
          · intro hcl
            exact absurd ⟨rfl, rfl, hd⟩ hcl
        · cases hdt : truthyS b.directoryPath with
          | false =>
            simp only [handleInitiateUpload, hf, hc, hdt]
            simp [hd]
          | true =>
            have hne : b.directoryPath ≠ some "pending" ∧
                b.directoryPath ≠ some "approved" := by
              constructor <;> intro h <;> exact hd (by simp [h])
            simp only [handleInitiateUpload, hf, hc, hdt]
            simp [hne.1, hne.2, hd]
  · intro v
    cases v <;> simp [statusInitiate]

/-- Witness for the amended C6: the rejected folder makes validation fail
with one of the two 400 responses. -/
theorem initiate_validation_amended_witness :
    (handleInitiateUpload
        (Except.ok ⟨some "ADDR1.jpg", some "image/jpeg", some "rejected"⟩)
        okOut goodUploadResp).1 = Except.ok InitiateResp.missingFields ∨
    (handleInitiateUpload
        (Except.ok ⟨some "ADDR1.jpg", some "image/jpeg", some "rejected"⟩)
        okOut goodUploadResp).1 = Except.ok InitiateResp.invalidDirectoryPath :=
  (initiate_validation_amended.1 ⟨some "ADDR1.jpg", some "image/jpeg", some "rejected"⟩
    okOut goodUploadResp).mpr (by simp)

/-- Counterexample to C7 as stated: a submitted identifier with no pending
object is recorded as skipped, but with the literal reason string of the
code, which is not the string the claim names. -/
theorem sync_skipped_reason_counterexample :
    (handleSyncApprovedMembers "POST" (Except.ok (AddressesField.arr ["ADDR2"]))
        okOut [] (fun _ => mvAllOk)).1
      = SyncResp.ok ⟨[], [⟨"ADDR2", "No pending image found"⟩], []⟩ ∧
    ("No pending image found" : String) ≠ "no pending object" := by
  exact ⟨rfl, by decide⟩

/-- C7 amended: a processed identifier with no matching object in the
pending folder is recorded in the skipped list with the literal reason
string of the code, No pending image found, and appears in neither the
moved nor the errors list; in particular re-running sync after promotion
always yields such a skipped entry. -/
theorem sync_skip_no_pending_amended (addrs : List String) (listOut : HttpOutcome)
    (items : List ApillonItem) (mv : Nat → MoveOracle) (r : SyncResult) (a : String)
    (h : (handleSyncApprovedMembers "POST" (Except.ok (AddressesField.arr addrs))
      listOut items mv).1 = SyncResp.ok r)
    (ha : a ∈ addrs.take 50)
    (hget : mapGet (pendingMapOf items) a = none) :
    SkippedEntry.mk a "No pending image found" ∈ r.skipped ∧
    (∀ m ∈ r.moved, m.address ≠ a) ∧
    (∀ m ∈ r.errors, m.address ≠ a) := by
  obtain ⟨hne, hok, hr⟩ := handleSync_ok_inv addrs listOut items mv r h
  subst hr
  refine ⟨syncLoop_skipped_mem mv (pendingMapOf items) (addrs.take 50) 0 a ha hget,
    ?_, ?_⟩
  · intro m hm heq
    exact syncLoop_moved_has_pending mv (pendingMapOf items) (addrs.take 50) 0 m hm
      (by rw [heq]; exact hget)
  · intro m hm heq
    exact syncLoop_errors_has_pending mv (pendingMapOf items) (addrs.take 50) 0 m hm
      (by rw [heq]; exact hget)

/-- Witness for the amended C7: an identifier absent from the pending
folder lands in the skipped list only. -/
theorem sync_skip_no_pending_amended_witness :
    SkippedEntry.mk "ADDR2" "No pending image found" ∈
      (SyncResult.mk [] [⟨"ADDR2", "No pending image found"⟩] []).skipped ∧
    (∀ m ∈ (SyncResult.mk [] [⟨"ADDR2", "No pending image found"⟩] []).moved,
      m.address ≠ "ADDR2") ∧
    (∀ m ∈ (SyncResult.mk [] [⟨"ADDR2", "No pending image found"⟩] []).errors,
      m.address ≠ "ADDR2") :=
  sync_skip_no_pending_amended ["ADDR2"] okOut itemsEx (fun _ => mvAllOk)
    (SyncResult.mk [] [⟨"ADDR2", "No pending image found"⟩] []) "ADDR2"
    (by rfl) (by decide) (by rfl)

/-- C8: the Folder Index returns exactly the objects whose recorded path
equals the folder name followed by a slash; an object lacking a path, or
carrying any other path, is excluded. -/
theorem listFilesInFolder_exact_path (items : List ApillonItem) (folder : String)
    (e : ListedFile) :
    e ∈ listFilesInFolder items folder ↔
      ∃ it, it ∈ items ∧ it.path = some (folder ++ "/") ∧
        e = ⟨it.name, it.fileUuid, it.link, jsOrOpt it.CIDv1 it.CID⟩ := by
  have hne : ("" : String) ≠ folder ++ "/" := by
    intro h
    have hlen := congrArg String.length h
    rw [String.length_append] at hlen
    have h0 : ("" : String).length = 0 := rfl
    have h1 : ("/" : String).length = 1 := rfl
    omega
  simp only [listFilesInFolder, List.mem_map, List.mem_filter]
  constructor
  · rintro ⟨it, ⟨hmem, hpath⟩, he⟩
    refine ⟨it, hmem, ?_, he.symm⟩
    cases hp : it.path with
    | none =>
      rw [hp] at hpath
      simp only [Option.getD_none, decide_eq_true_eq] at hpath
      exact absurd hpath hne
    | some s =>
      rw [hp] at hpath
      simp only [Option.getD_some, decide_eq_true_eq] at hpath
      rw [hpath]
  · rintro ⟨it, hmem, hpath, he⟩
    refine ⟨it, ⟨hmem, ?_⟩, he.symm⟩
    rw [hpath]
    simp

/-- Witness for C8: the pending object of the fixture listing is returned
for the pending folder. -/
theorem listFilesInFolder_exact_path_witness :
    (⟨"ADDR1.jpg", "u-1", some "https://link1", some "cid1"⟩ : ListedFile)
      ∈ listFilesInFolder itemsEx "pending" :=
  (listFilesInFolder_exact_path itemsEx "pending"
      ⟨"ADDR1.jpg", "u-1", some "https://link1", some "cid1"⟩).mpr
    ⟨⟨"ADDR1.jpg", "u-1", some "pending/", some "https://link1", none, some "cid1"⟩,
      by decide, rfl, rfl⟩

/-- C9: a matched object name splits at its last dot into identifier and
nonempty dot-free extension; a name without a dot never matches; every
pending-map entry comes from a matched name; and every moved entry comes
from a pending-map hit, so an extensionless object is never entered into
the map and never moved. -/
theorem sync_identifier_extraction :
    (∀ name a ext, matchNameExt name = some (a, ext) →
      name = a ++ "." ++ ext ∧ a ≠ "" ∧ ext ≠ "" ∧ ext.data.contains '.' = false) ∧
    (∀ name : String, name.data.contains '.' = false → matchNameExt name = none) ∧
    (∀ files a fi, mapGet (buildPendingMap files) a = some fi →
      ∃ f, f ∈ files ∧ fi.fileName = f.name ∧
        matchNameExt f.name = some (a, fi.extension)) ∧
    (∀ (mv : Nat → MoveOracle) (pmap : List (String × PendingInfo)) (i : Nat)
      (addrs : List String) (m : MovedEntry),
      m ∈ (syncLoop mv pmap i addrs).1.moved → mapGet pmap m.address ≠ none) := by
  refine ⟨?_, ?_, ?_, ?_⟩
  · intro name a ext h
    cases hs : splitLastDot name.data with
    | none => simp [matchNameExt, hs] at h
    | some p =>
      obtain ⟨b, e⟩ := p
      simp only [matchNameExt, hs] at h
      split at h
      next hb =>
        simp only [Option.some.injEq, Prod.mk.injEq] at h
        obtain ⟨hA, hE⟩ := h
        obtain ⟨hdata, hne, hnd⟩ := splitLastDot_eq_some name.data b e hs
        subst hA hE
        refine ⟨?_, ?_, ?_, ?_⟩
        · cases name with
          | mk d =>
            simp only [String.data] at hdata
            rw [hdata]
            exact congrArg String.mk (by simp)
        · intro hmk
          exact hb.1 (congrArg String.data hmk)
        · intro hmk
          exact hne (congrArg String.data hmk)
        · exact hnd
      next hb => exact absurd h (by simp)
  · intro name h
    rw [matchNameExt, splitLastDot_of_no_dot name.data h]
  · intro files a fi h
    exact buildPendingMap_sourced files a fi h
  · intro mv pmap i addrs m hm
    exact syncLoop_moved_has_pending mv pmap addrs i m hm

/-- Witness for C9 at a concrete matched name. -/
theorem sync_identifier_extraction_witness :
    ("ADDR1.jpg" : String) = "ADDR1" ++ "." ++ "jpg" ∧ ("ADDR1" : String) ≠ "" ∧
    ("jpg" : String) ≠ "" ∧ ("jpg" : String).data.contains '.' = false :=
  sync_identifier_extraction.1 "ADDR1.jpg" "ADDR1" "jpg" (by decide)

end PoiWorker
